import Mathlib

/-!
Verification of the qianwen client library (qianwen_client_enhanced.py and
config.py): a shallow embedding of the storage factory, memory manager,
log manager, session builder and request pipeline, with theorems checking
the specification claims against the embedded code.

Python machine model used throughout:
- Python runtime values that can appear as message content or log payloads
  are modelled by `PyVal` (strings, numbers, booleans, None, lists, dicts);
  dicts are modelled as association lists in insertion order.
- `datetime` timestamps are modelled as natural numbers with a monotone clock
  threaded explicitly.
- `async` functions are modelled as pure state-passing functions; an operation
  that may raise returns `Except String`.
- `json.loads` / `json.dumps` are modelled by `jsonLoads` / `jsonDumps` below
  (standard JSON grammar including the Python extensions NaN / Infinity;
  float repr of non-integral numbers is not modelled digit-for-digit, which
  no theorem below depends on).
-/

/-- A Python runtime value, as far as this library manipulates them.
`num` is a Python int (integer JSON literal); `float` is a Python float
(fraction or exponent in the literal), modelled by its exact decimal value. -/
inductive PyVal where
  | null
  | bool (b : Bool)
  | num (n : Int)
  | float (q : Rat)
  | nan
  | inf
  | neginf
  | str (s : String)
  | arr (xs : List PyVal)
  | obj (kvs : List (String × PyVal))

/-- Opening brace character, kept out of literals. -/
def lbraceChar : Char := Char.ofNat 123

/-- Closing brace character, kept out of literals. -/
def rbraceChar : Char := Char.ofNat 125

/-- JSON whitespace (the four characters json.loads skips between tokens). -/
def isJsonWs (c : Char) : Bool :=
  c == ' ' || c == '\t' || c == '\n' || c == '\r'

/-- Drop leading JSON whitespace. -/
def skipWs : List Char → List Char
  | [] => []
  | c :: cs => if isJsonWs c then skipWs cs else c :: cs

theorem skipWs_length (l : List Char) : (skipWs l).length ≤ l.length := by
  induction l with
  | nil => simp [skipWs]
  | cons c cs ih =>
    simp only [skipWs]
    split
    · exact Nat.le_succ_of_le ih
    · simp

/-- Value of a hexadecimal digit character. -/
def hexVal (c : Char) : Option Nat :=
  if '0' ≤ c ∧ c ≤ '9' then some (c.toNat - '0'.toNat)
  else if 'a' ≤ c ∧ c ≤ 'f' then some (c.toNat - 'a'.toNat + 10)
  else if 'A' ≤ c ∧ c ≤ 'F' then some (c.toNat - 'A'.toNat + 10)
  else none

/-- Single-character JSON escapes. -/
def escChar (c : Char) : Option Char :=
  if c = '"' then some '"'
  else if c = '\\' then some '\\'
  else if c = '/' then some '/'
  else if c = 'b' then some (Char.ofNat 8)
  else if c = 'f' then some (Char.ofNat 12)
  else if c = 'n' then some '\n'
  else if c = 'r' then some '\r'
  else if c = 't' then some '\t'
  else none

/-- Parse the body of a JSON string literal (input starts after the opening
quote); returns the decoded characters and the input after the closing
quote. -/
def parseStrBody : List Char → Option (List Char × List Char)
  | [] => none
  | '"' :: rest => some ([], rest)
  | '\\' :: 'u' :: a :: b :: c :: d :: rest =>
    match hexVal a, hexVal b, hexVal c, hexVal d with
    | some x, some y, some z, some w =>
      match parseStrBody rest with
      | some (cs, r) => some (Char.ofNat (((x * 16 + y) * 16 + z) * 16 + w) :: cs, r)
      | none => none
    | _, _, _, _ => none
  | '\\' :: e :: rest =>
    match escChar e with
    | some c =>
      match parseStrBody rest with
      | some (cs, r) => some (c :: cs, r)
      | none => none
    | none => none
  | c :: rest =>
    if c = '\\' ∨ c.toNat < 32 then none
    else
      match parseStrBody rest with
      | some (cs, r) => some (c :: cs, r)
      | none => none

/-- Longest digit run at the front of the input. -/
def spanDigits : List Char → List Char × List Char
  | [] => ([], [])
  | c :: cs =>
    if c.isDigit then
      let p := spanDigits cs
      (c :: p.1, p.2)
    else ([], c :: cs)

/-- Digit run to a natural number. -/
def digitsToNat (ds : List Char) : Nat :=
  ds.foldl (fun n c => n * 10 + (c.toNat - '0'.toNat)) 0

/-- Parse the optional fractional part of a JSON number. -/
def parseFrac (l : List Char) : Option (Rat × List Char) :=
  match l with
  | '.' :: r =>
    let p := spanDigits r
    if p.1 = [] then none
    else some ((digitsToNat p.1 : Rat) / ((10 : Rat) ^ p.1.length), p.2)
  | _ => some (0, l)

/-- Parse the optional exponent part of a JSON number. -/
def parseExp (l : List Char) : Option (Int × List Char) :=
  match l with
  | c :: r =>
    if c = 'e' ∨ c = 'E' then
      let sp : Int × List Char :=
        match r with
        | '+' :: t => (1, t)
        | '-' :: t => (-1, t)
        | _ => (1, r)
      let p := spanDigits sp.2
      if p.1 = [] then none
      else some (sp.1 * (digitsToNat p.1 : Int), p.2)
    else some (0, l)
  | [] => some (0, [])

/-- Parse a JSON number (optional sign, integer part without leading zeros,
optional fraction, optional exponent); an int when the literal has neither
fraction nor exponent, a float otherwise, as in Python. -/
def parseNum (l : List Char) : Option (PyVal × List Char) :=
  let sp : Bool × List Char :=
    match l with
    | '-' :: r => (true, r)
    | _ => (false, l)
  let p := spanDigits sp.2
  if p.1 = [] then none
  else if p.1.length > 1 ∧ p.1.headD '0' = '0' then none
  else
    let isFloat : Bool :=
      match p.2 with
      | '.' :: _ => true
      | 'e' :: _ => true
      | 'E' :: _ => true
      | _ => false
    if isFloat then
      match parseFrac p.2 with
      | none => none
      | some (fr, r3) =>
        match parseExp r3 with
        | none => none
        | some (ex, r4) =>
          let mag : Rat := ((digitsToNat p.1 : Rat) + fr) * (10 : Rat) ^ ex
          some (.float (if sp.1 then -mag else mag), r4)
    else
      some (.num (if sp.1 then -(digitsToNat p.1 : Int) else (digitsToNat p.1 : Int)), p.2)

/-- Does `lit` prefix `l`? If so return the rest of `l`. -/
def stripLit : List Char → List Char → Option (List Char)
  | [], l => some l
  | c :: cs, x :: xs => if x = c then stripLit cs xs else none
  | _ :: _, [] => none

mutual

/-- Parse one JSON value (fuel-indexed recursion; fuel bounds nesting
depth). Mirrors the grammar accepted by Python json.loads, including the
non-strict NaN / Infinity extensions enabled by default. -/
def parseVal : Nat → List Char → Option (PyVal × List Char)
  | 0, _ => none
  | fuel + 1, l =>
    match skipWs l with
    | [] => none
    | c :: r =>
      if c = '"' then
        match parseStrBody r with
        | some (cs, r2) => some (.str (String.mk cs), r2)
        | none => none
      else if c = '[' then
        match skipWs r with
        | c2 :: r2 =>
          if c2 = ']' then some (.arr [], r2)
          else
            match parseElems fuel (c2 :: r2) with
            | some (xs, r3) => some (.arr xs, r3)
            | none => none
        | [] => none
      else if c = lbraceChar then
        match skipWs r with
        | c2 :: r2 =>
          if c2 = rbraceChar then some (.obj [], r2)
          else
            match parseMembers fuel (c2 :: r2) with
            | some (kvs, r3) => some (.obj kvs, r3)
            | none => none
        | [] => none
      else if c = 'n' then
        match stripLit ['u', 'l', 'l'] r with
        | some r2 => some (.null, r2)
        | none => none
      else if c = 't' then
        match stripLit ['r', 'u', 'e'] r with
        | some r2 => some (.bool true, r2)
        | none => none
      else if c = 'f' then
        match stripLit ['a', 'l', 's', 'e'] r with
        | some r2 => some (.bool false, r2)
        | none => none
      else if c = 'N' then
        match stripLit ['a', 'N'] r with
        | some r2 => some (.nan, r2)
        | none => none
      else if c = 'I' then
        match stripLit ['n', 'f', 'i', 'n', 'i', 't', 'y'] r with
        | some r2 => some (.inf, r2)
        | none => none
      else if c = '-' then
        match stripLit ['I', 'n', 'f', 'i', 'n', 'i', 't', 'y'] r with
        | some r2 => some (.neginf, r2)
        | none => parseNum (c :: r)
      else parseNum (c :: r)

/-- Parse the elements of a non-empty JSON array, including the closing
bracket. -/
def parseElems : Nat → List Char → Option (List PyVal × List Char)
  | 0, _ => none
  | fuel + 1, l =>
    match parseVal fuel l with
    | some (v, r) =>
      match skipWs r with
      | c :: r2 =>
        if c = ',' then
          match parseElems fuel r2 with
          | some (xs, r3) => some (v :: xs, r3)
          | none => none
        else if c = ']' then some ([v], r2)
        else none
      | [] => none
    | none => none

/-- Parse the members of a non-empty JSON object, including the closing
brace. -/
def parseMembers : Nat → List Char → Option (List (String × PyVal) × List Char)
  | 0, _ => none
  | fuel + 1, l =>
    match skipWs l with
    | c :: r =>
      if c = '"' then
        match parseStrBody r with
        | some (kcs, r2) =>
          match skipWs r2 with
          | c2 :: r3 =>
            if c2 = ':' then
              match parseVal fuel r3 with
              | some (v, r4) =>
                match skipWs r4 with
                | c3 :: r5 =>
                  if c3 = ',' then
                    match parseMembers fuel r5 with
                    | some (kvs, r6) => some ((String.mk kcs, v) :: kvs, r6)
                    | none => none
                  else if c3 = rbraceChar then some ([(String.mk kcs, v)], r5)
                  else none
                | [] => none
              | none => none
            else none
          | [] => none
        | none => none
      else none
    | [] => none

end

/-- Model of Python json.loads: parse a complete JSON document, allowing
trailing whitespace only. -/
def jsonLoads (s : String) : Option PyVal :=
  match parseVal (s.length + 1) s.data with
  | some (v, r) => if skipWs r = [] then some v else none
  | none => none

theorem parseStrBody_length : ∀ (l : List Char) (cs r : List Char),
    parseStrBody l = some (cs, r) → cs.length + 1 + r.length ≤ l.length := by
  intro l
  induction l using parseStrBody.induct <;>
    intro cs r h <;>
    simp_all [parseStrBody] <;>
    (obtain ⟨h1, h2⟩ := h; subst h1; subst h2; try simp only [List.length_cons]
     omega)

theorem parseNum_not_str (l : List Char) (t : String) (r : List Char) :
    parseNum l ≠ some (.str t, r) := by
  intro h
  simp only [parseNum] at h
  split at h
  · exact Option.noConfusion h
  · split at h
    · exact Option.noConfusion h
    · split at h
      · split at h
        · exact Option.noConfusion h
        · split at h
          · exact Option.noConfusion h
          · simp at h
      · simp at h

theorem parseVal_str_length (fuel : Nat) (l : List Char) (t : String) (r : List Char)
    (h : parseVal fuel l = some (.str t, r)) : t.length + 2 ≤ l.length := by
  match fuel with
  | 0 => simp [parseVal] at h
  | fuel + 1 =>
    have hws := skipWs_length l
    rw [parseVal] at h
    split at h
    · exact Option.noConfusion h
    case _ c r1 heq =>
      rw [heq] at hws
      simp only [List.length_cons] at hws
      split at h
      · cases hsb : parseStrBody r1 with
        | none => rw [hsb] at h; exact Option.noConfusion h
        | some p =>
          rw [hsb] at h
          obtain ⟨cs, r2⟩ := p
          simp only [Option.some.injEq, Prod.mk.injEq] at h
          obtain ⟨ht, hr⟩ := h
          have hlen := parseStrBody_length r1 cs r2 hsb
          have ht3 : t = String.mk cs := by
            simp only [PyVal.str.injEq] at ht
            exact ht.symm
          subst ht3
          have ht2 : (String.mk cs).length = cs.length := rfl
          omega
      all_goals (try (split at h <;> try split at h))
      all_goals first
        | exact Option.noConfusion h
        | (simp only [Option.some.injEq, Prod.mk.injEq] at h; exact PyVal.noConfusion h.1)
        | exact absurd h (parseNum_not_str _ _ _)
        | (repeat' split at h
           all_goals first
             | exact Option.noConfusion h
             | (simp only [Option.some.injEq, Prod.mk.injEq] at h; exact PyVal.noConfusion h.1)
             | exact absurd h (parseNum_not_str _ _ _))

/-- A successfully parsed top-level JSON string is strictly shorter than its
source text (the quotes are consumed), so json.loads never returns its own
input string. -/
theorem jsonLoads_str_shorter (s : String) (t : String)
    (h : jsonLoads s = some (.str t)) : t.length + 2 ≤ s.length := by
  simp only [jsonLoads] at h
  split at h
  next v r heq =>
    split at h
    · simp only [Option.some.injEq] at h
      subst h
      have := parseVal_str_length (s.length + 1) s.data t r heq
      simpa using this
    · exact Option.noConfusion h
  next => exact Option.noConfusion h

/-- json.loads never decodes a string to itself: decoding either fails or
yields a value different from the input string. -/
theorem jsonLoads_ne_input (s : String) (v : PyVal)
    (h : jsonLoads s = some v) : v ≠ .str s := by
  intro hv
  subst hv
  have := jsonLoads_str_shorter s s h
  omega

/-- Hexadecimal digit character for a value below 16. -/
def hexDigit (n : Nat) : Char :=
  if n < 10 then Char.ofNat ('0'.toNat + n) else Char.ofNat ('a'.toNat + n - 10)

/-- JSON escaping of one character, as json.dumps performs it. -/
def escOut (c : Char) : List Char :=
  if c = '"' then ['\\', '"']
  else if c = '\\' then ['\\', '\\']
  else if c = '\n' then ['\\', 'n']
  else if c = '\t' then ['\\', 't']
  else if c = '\r' then ['\\', 'r']
  else if c.toNat = 8 then ['\\', 'b']
  else if c.toNat = 12 then ['\\', 'f']
  else if c.toNat < 32 then
    ['\\', 'u', '0', '0', hexDigit (c.toNat / 16), hexDigit (c.toNat % 16)]
  else [c]

/-- JSON string literal for `s` (quotes plus escaped body). -/
def escapeString (s : String) : String :=
  String.mk ('"' :: s.data.foldr (fun c acc => escOut c ++ acc) ['"'])

mutual

/-- Model of Python json.dumps with default separators. The repr of floats
is not modelled digit-for-digit (no theorem depends on it). -/
def jsonDumps : PyVal → String
  | .null => "null"
  | .bool true => "true"
  | .bool false => "false"
  | .nan => "NaN"
  | .inf => "Infinity"
  | .neginf => "-Infinity"
  | .num n => toString n
  | .float q => toString q.num ++ "/" ++ toString q.den
  | .str s => escapeString s
  | .arr xs => "[" ++ dumpsList xs ++ "]"
  | .obj kvs =>
    String.mk [lbraceChar] ++ dumpsMembers kvs ++ String.mk [rbraceChar]

def dumpsList : List PyVal → String
  | [] => ""
  | [x] => jsonDumps x
  | x :: y :: xs => jsonDumps x ++ ", " ++ dumpsList (y :: xs)

def dumpsMembers : List (String × PyVal) → String
  | [] => ""
  | [(k, v)] => escapeString k ++ ": " ++ jsonDumps v
  | (k, v) :: m :: xs => escapeString k ++ ": " ++ jsonDumps v ++ ", " ++ dumpsMembers (m :: xs)

end

/-! ## Configuration (config.py) -/

/-- ModelConfig (config.py). Floats are modelled as rationals. -/
structure ModelConfig where
  default_model : String := "qwen-plus"
  default_temperature : Rat := 7/10
  default_max_tokens : Int := 2000
  default_system_message : Option String := none
  available_models : List String := ["qwen-plus", "qwen-max", "qwen-vl-plus", "qwen-vl-max"]

/-- MemoryConfig (config.py). `custom_storage` holds an opaque handle to a
caller-supplied storage instance, `none` when absent. -/
structure MemoryConfig where
  enabled : Bool := true
  storage_type : String := "mongodb"
  max_history_length : Int := 10
  ttl_hours : Int := 24 * 7
  mongo_uri : String := "mongodb://localhost:27017"
  mongo_database : String := "qianwen_memory"
  mongo_collection : String := "conversations"
  custom_storage : Option Nat := none

/-- LogConfig (config.py). -/
structure LogConfig where
  enabled : Bool := true
  storage_type : String := "mongodb"
  log_level : String := "INFO"
  log_requests : Bool := true
  log_responses : Bool := true
  log_errors : Bool := true
  mongo_uri : String := "mongodb://localhost:27017"
  mongo_database : String := "qianwen_logs"
  mongo_collection : String := "api_logs"
  custom_storage : Option Nat := none

/-- QianwenConfig (config.py), without the API credential block, which no
claim concerns. -/
structure QianwenConfigM where
  model : ModelConfig := {}
  memory : MemoryConfig := {}
  log : LogConfig := {}

/-! ## Data model -/

/-- ChatMessage (qianwen_client_enhanced.py). The flows modelled always
supply user and session identifiers, so the Optional fields are plain
strings here. -/
structure ChatMessage where
  role : String
  content : PyVal
  timestamp : Nat
  user_id : String
  session_id : String
  metadata : List (String × PyVal) := []

/-- One document of the MongoDB conversations collection. -/
structure StoredMsg where
  user_id : String
  session_id : String
  role : String
  content : String
  metadata : List (String × PyVal)
  timestamp : Nat

/-- State of the MongoDB memory collection: whether the connection was set
up, and the stored documents in insertion order. -/
structure MongoStore where
  connected : Bool
  docs : List StoredMsg

/-- The record shape MongoMemoryStorage.get_history yields per message. -/
structure HistDoc where
  role : String
  content : String
  metadata : List (String × PyVal)
  timestamp : Nat

/-- Timestamp order on stored documents (the sort key of the history
query). -/
def tsLe (a b : StoredMsg) : Prop := a.timestamp ≤ b.timestamp

instance : DecidableRel tsLe := fun a b => Nat.decLe a.timestamp b.timestamp

instance : IsTotal StoredMsg tsLe := ⟨fun a b => Nat.le_total a.timestamp b.timestamp⟩

instance : IsTrans StoredMsg tsLe := ⟨fun _ _ _ => Nat.le_trans⟩

/-! ## MongoMemoryStorage (config.py) -/

/-- MongoMemoryStorage.save_message: inserts one document stamped with the
current time; returns False without side effect when the collection handle
is absent. -/
def MongoMemoryStorage.save_message (st : MongoStore) (user_id session_id role content : String)
    (metadata : List (String × PyVal)) (now : Nat) : Except String (Bool × MongoStore) :=
  if ¬ st.connected then .ok (false, st)
  else .ok (true, { st with docs := st.docs ++ [⟨user_id, session_id, role, content, metadata, now⟩] })

/-- The cursor limit of the history query: the explicit limit when truthy
(a negative pymongo limit acts by absolute value), else the configured
max_history_length when positive, else no limit. -/
def mongoLimit (config : MemoryConfig) (limit : Option Int) (sorted : List StoredMsg) :
    List StoredMsg :=
  match limit with
  | some n =>
    if n ≠ 0 then sorted.take n.natAbs
    else if config.max_history_length > 0 then sorted.take config.max_history_length.toNat
    else sorted
  | none =>
    if config.max_history_length > 0 then sorted.take config.max_history_length.toNat
    else sorted

/-- MongoMemoryStorage.get_history: filter by session key, sort by timestamp
ascending, then apply the explicit limit if truthy, else the configured
max_history_length if positive (a cursor limit takes the FIRST documents of
the ascending sort, i.e. the oldest). -/
def MongoMemoryStorage.get_history (config : MemoryConfig) (st : MongoStore)
    (user_id session_id : String) (limit : Option Int) : Except String (List HistDoc) :=
  if ¬ st.connected then .ok []
  else
    let q := st.docs.filter (fun d => d.user_id == user_id && d.session_id == session_id)
    let sorted := List.insertionSort tsLe q
    .ok ((mongoLimit config limit sorted).map
      (fun d => ⟨d.role, d.content, d.metadata, d.timestamp⟩))

/-- MongoMemoryStorage.clear_history: delete all documents of the session. -/
def MongoMemoryStorage.clear_history (st : MongoStore) (user_id session_id : String) :
    Except String (Bool × MongoStore) :=
  if ¬ st.connected then .ok (false, st)
  else
    let keep := fun (d : StoredMsg) => !(d.user_id == user_id && d.session_id == session_id)
    .ok (true, { st with docs := st.docs.filter keep })

/-! ## StorageFactory (qianwen_client_enhanced.py) -/

/-- What create_memory_storage returns: the caller-supplied instance
(identified by its opaque handle) or a built-in backend. -/
inductive MemStorageChoice where
  | custom (handle : Nat)
  | mongo
deriving DecidableEq

/-- What create_log_storage returns. -/
inductive LogStorageChoice where
  | custom (handle : Nat)
  | mongo
deriving DecidableEq

/-- StorageFactory.create_memory_storage: None when memory is disabled, the
custom instance when one is set, otherwise dispatch on the storage-type tag
(redis and file are unimplemented; unknown tags are a ValueError). -/
def StorageFactory.create_memory_storage (config : MemoryConfig) :
    Except String (Option MemStorageChoice) :=
  if ¬ config.enabled then .ok none
  else
    match config.custom_storage with
    | some h => .ok (some (.custom h))
    | none =>
      if config.storage_type = "mongodb" then .ok (some .mongo)
      else if config.storage_type = "redis" then .error "NotImplementedError"
      else if config.storage_type = "file" then .error "NotImplementedError"
      else .error "ValueError: unsupported storage type"

/-- StorageFactory.create_log_storage: same shape, with file unimplemented
and unknown tags a ValueError. -/
def StorageFactory.create_log_storage (config : LogConfig) :
    Except String (Option LogStorageChoice) :=
  if ¬ config.enabled then .ok none
  else
    match config.custom_storage with
    | some h => .ok (some (.custom h))
    | none =>
      if config.storage_type = "mongodb" then .ok (some .mongo)
      else if config.storage_type = "file" then .error "NotImplementedError"
      else .error "ValueError: unsupported log storage type"

/-! ## MemoryManager (qianwen_client_enhanced.py) -/

/-- Behaviour of an arbitrary history storage implementation (built-in or
caller-supplied) over its own state type; an `.error` result models the
implementation raising an exception. -/
structure MemStorageImpl (σ : Type) where
  save_message : σ → String → String → String → String → List (String × PyVal) → Nat →
    Except String (Bool × σ)
  get_history : σ → String → String → Option Int → Except String (List HistDoc)
  clear_history : σ → String → String → Except String (Bool × σ)

/-- The built-in MongoDB history backend as a storage implementation. -/
def mongoMemImpl (config : MemoryConfig) : MemStorageImpl MongoStore where
  save_message := fun st u s role content md now =>
    MongoMemoryStorage.save_message st u s role content md now
  get_history := fun st u s limit => MongoMemoryStorage.get_history config st u s limit
  clear_history := fun st u s => MongoMemoryStorage.clear_history st u s

/-- Local TTL cache of the MemoryManager: `none` when the cache is absent
(cachetools missing or memory disabled), else an association list from the
"user:session" key to the cached message list. Expiry by wall-clock TTL is
outside this model. -/
structure MMState where
  cache : Option (List (String × List ChatMessage))

/-- Update an association list at a key (insert if absent). -/
def assocSet {α : Type} (l : List (String × α)) (k : String) (v : α) : List (String × α) :=
  match l with
  | [] => [(k, v)]
  | (k2, v2) :: rest => if k2 == k then (k, v) :: rest else (k2, v2) :: assocSet rest k v

/-- Remove a key from an association list. -/
def assocErase {α : Type} (l : List (String × α)) (k : String) : List (String × α) :=
  match l with
  | [] => []
  | (k2, v2) :: rest => if k2 == k then rest else (k2, v2) :: assocErase rest k

/-- The cache key "user_id:session_id". -/
def cacheKey (user_id session_id : String) : String :=
  user_id ++ ":" ++ session_id

/-- Cache membership test: the cached list for a key, when the cache exists
and holds the key. -/
def cacheLookup (mm : MMState) (key : String) : Option (List ChatMessage) :=
  match mm.cache with
  | some c => List.lookup key c
  | none => none

/-- The content string handed to storage: the content itself when it is a
Python str, its json.dumps serialization otherwise. -/
def contentToStr : PyVal → String
  | .str s => s
  | v => jsonDumps v

/-- The read-side content decode: try json.loads, keep the string as is when
that raises. -/
def tryJsonLoads (s : String) : PyVal :=
  match jsonLoads s with
  | some v => v
  | none => .str s

/-- MemoryManager.save_message with a storage attached: write through to
storage (an exception is swallowed and skips the rest), then append to the
cached list when the session key is already cache-resident. -/
def MemoryManager.save_message {σ : Type} (impl : MemStorageImpl σ) (st : σ) (mm : MMState)
    (msg : ChatMessage) (now : Nat) : σ × MMState :=
  match impl.save_message st msg.user_id msg.session_id msg.role (contentToStr msg.content)
      msg.metadata now with
  | .error _ => (st, mm)
  | .ok (_, st2) =>
    match mm.cache with
    | none => (st2, mm)
    | some c =>
      match List.lookup (cacheKey msg.user_id msg.session_id) c with
      | some cached =>
        (st2, ⟨some (assocSet c (cacheKey msg.user_id msg.session_id) (cached ++ [msg]))⟩)
      | none => (st2, mm)

/-- Python slicing lst[-limit:] for a truthy integer limit. -/
def pySliceNeg {α : Type} (l : List α) (limit : Int) : List α :=
  if 0 < limit then l.drop (l.length - limit.toNat) else l.drop (-limit).toNat

/-- MemoryManager.get_history with a storage attached: serve the cached list
(sliced to the last `limit` entries when a truthy limit is given) on a cache
hit; otherwise read from storage, json-decode each content, build messages,
and populate the cache. A storage exception is swallowed and yields []. -/
def MemoryManager.get_history {σ : Type} (impl : MemStorageImpl σ) (st : σ) (mm : MMState)
    (user_id session_id : String) (limit : Option Int) : List ChatMessage × MMState :=
  let key := cacheKey user_id session_id
  match cacheLookup mm key with
  | some cached =>
    match limit with
    | some n => if n ≠ 0 then (pySliceNeg cached n, mm) else (cached, mm)
    | none => (cached, mm)
  | none =>
    match impl.get_history st user_id session_id limit with
    | .error _ => ([], mm)
    | .ok docs =>
      let msgs := docs.map (fun d =>
        ⟨d.role, tryJsonLoads d.content, d.timestamp, user_id, session_id, d.metadata⟩)
      match mm.cache with
      | some c => (msgs, ⟨some (assocSet c key msgs)⟩)
      | none => (msgs, mm)

/-- MemoryManager.clear_history with a storage attached: clear storage, then
evict the cache entry; a storage exception is swallowed and skips the cache
eviction. -/
def MemoryManager.clear_history {σ : Type} (impl : MemStorageImpl σ) (st : σ) (mm : MMState)
    (user_id session_id : String) : σ × MMState :=
  match impl.clear_history st user_id session_id with
  | .error _ => (st, mm)
  | .ok (_, st2) =>
    match mm.cache with
    | none => (st2, mm)
    | some c => (st2, ⟨some (assocErase c (cacheKey user_id session_id))⟩)

/-- MemoryManager.save_message including the no-storage guard (storage is
None exactly when memory is disabled). -/
def MemoryManager.save_messageOpt {σ : Type} (impl : Option (MemStorageImpl σ)) (st : σ)
    (mm : MMState) (msg : ChatMessage) (now : Nat) : σ × MMState :=
  match impl with
  | none => (st, mm)
  | some i => MemoryManager.save_message i st mm msg now

/-- MemoryManager.get_history including the no-storage guard. -/
def MemoryManager.get_historyOpt {σ : Type} (impl : Option (MemStorageImpl σ)) (st : σ)
    (mm : MMState) (user_id session_id : String) (limit : Option Int) :
    List ChatMessage × MMState :=
  match impl with
  | none => ([], mm)
  | some i => MemoryManager.get_history i st mm user_id session_id limit

/-- MemoryManager.clear_history including the no-storage guard. -/
def MemoryManager.clear_historyOpt {σ : Type} (impl : Option (MemStorageImpl σ)) (st : σ)
    (mm : MMState) (user_id session_id : String) : σ × MMState :=
  match impl with
  | none => (st, mm)
  | some i => MemoryManager.clear_history i st mm user_id session_id

/-! ## MongoLogStorage (config.py) and LogManager (qianwen_client_enhanced.py) -/

/-- One document of the MongoDB log collection. -/
structure LogDoc where
  user_id : String
  session_id : String
  log_type : String
  data : PyVal
  request_id : Option String
  timestamp : Nat

/-- State of the MongoDB log collection. -/
structure MongoLogState where
  connected : Bool
  docs : List LogDoc

/-- Behaviour of an arbitrary log storage implementation over its own state
type; `.error` models the implementation raising. -/
structure LogStorageImpl (σ : Type) where
  log_request : σ → String → String → PyVal → Nat → Except String (Bool × σ)
  log_response : σ → String → String → PyVal → Option String → Nat → Except String (Bool × σ)
  log_error : σ → String → String → PyVal → Nat → Except String (Bool × σ)

/-- MongoLogStorage.log_request: the per-kind boolean is checked HERE, in
the built-in backend, not in the LogManager. -/
def MongoLogStorage.log_request (config : LogConfig) (st : MongoLogState)
    (user_id session_id : String) (request_data : PyVal) (now : Nat) :
    Except String (Bool × MongoLogState) :=
  if ¬ config.log_requests ∨ ¬ st.connected then .ok (false, st)
  else .ok (true, { st with docs := st.docs ++ [⟨user_id, session_id, "request", request_data, none, now⟩] })

/-- MongoLogStorage.log_response. -/
def MongoLogStorage.log_response (config : LogConfig) (st : MongoLogState)
    (user_id session_id : String) (response_data : PyVal) (request_id : Option String)
    (now : Nat) : Except String (Bool × MongoLogState) :=
  if ¬ config.log_responses ∨ ¬ st.connected then .ok (false, st)
  else .ok (true, { st with docs := st.docs ++ [⟨user_id, session_id, "response", response_data, request_id, now⟩] })

/-- MongoLogStorage.log_error. -/
def MongoLogStorage.log_error (config : LogConfig) (st : MongoLogState)
    (user_id session_id : String) (error_data : PyVal) (now : Nat) :
    Except String (Bool × MongoLogState) :=
  if ¬ config.log_errors ∨ ¬ st.connected then .ok (false, st)
  else .ok (true, { st with docs := st.docs ++ [⟨user_id, session_id, "error", error_data, none, now⟩] })

/-- The built-in MongoDB log backend as a log storage implementation. -/
def mongoLogImpl (config : LogConfig) : LogStorageImpl MongoLogState where
  log_request := fun st u s d now => MongoLogStorage.log_request config st u s d now
  log_response := fun st u s d rid now => MongoLogStorage.log_response config st u s d rid now
  log_error := fun st u s d now => MongoLogStorage.log_error config st u s d now

/-- A caller-supplied log storage that records every call unconditionally:
it receives the configuration like any custom implementation but consults
none of its per-kind booleans. -/
def recordAllLogImpl (_config : LogConfig) : LogStorageImpl MongoLogState where
  log_request := fun st u s d now =>
    .ok (true, { st with docs := st.docs ++ [⟨u, s, "request", d, none, now⟩] })
  log_response := fun st u s d rid now =>
    .ok (true, { st with docs := st.docs ++ [⟨u, s, "response", d, rid, now⟩] })
  log_error := fun st u s d now =>
    .ok (true, { st with docs := st.docs ++ [⟨u, s, "error", d, none, now⟩] })

/-- Python dict.get on an object value: None when absent. -/
def pyGet (d : PyVal) (k : String) : PyVal :=
  match d with
  | .obj kvs =>
    match List.lookup k kvs with
    | some v => v
    | none => .null
  | _ => .null

/-- Python dict.get with a default. -/
def pyGetD (d : PyVal) (k : String) (dflt : PyVal) : PyVal :=
  match d with
  | .obj kvs =>
    match List.lookup k kvs with
    | some v => v
    | none => dflt
  | _ => dflt

/-- The log_data dict LogManager.log_request assembles from the request
parameters before handing it to storage. -/
def requestLogData (request_id : String) (request_data : PyVal) : PyVal :=
  .obj [("request_id", .str request_id),
        ("model", pyGet request_data "model"),
        ("messages", pyGet request_data "messages"),
        ("temperature", pyGet request_data "temperature"),
        ("max_tokens", pyGet request_data "max_tokens"),
        ("stream", pyGetD request_data "stream" (.bool false))]

/-- The log_data dict LogManager.log_response assembles. -/
def responseLogData (response_data : PyVal) : PyVal :=
  .obj [("choices", pyGet response_data "choices"),
        ("usage", pyGet response_data "usage"),
        ("model", pyGet response_data "model"),
        ("created", pyGet response_data "created")]

/-- LogManager.log_request: without storage, return the caller id or a fresh
uuid (`fresh` models the generated uuid4); with storage, build the log_data
dict and hand it over, swallowing an exception; the id is returned in every
case. -/
def LogManager.log_request {σ : Type} (impl : Option (LogStorageImpl σ)) (st : σ)
    (user_id session_id : String) (request_data : PyVal) (request_id : Option String)
    (fresh : String) (now : Nat) : String × σ :=
  match impl with
  | none => (request_id.getD fresh, st)
  | some i =>
    let rid := request_id.getD fresh
    match i.log_request st user_id session_id (requestLogData rid request_data) now with
    | .error _ => (rid, st)
    | .ok (_, st2) => (rid, st2)

/-- LogManager.log_response: no-op without storage; builds the response
log_data and hands it over, swallowing an exception. -/
def LogManager.log_response {σ : Type} (impl : Option (LogStorageImpl σ)) (st : σ)
    (user_id session_id : String) (response_data : PyVal) (request_id : Option String)
    (now : Nat) : σ :=
  match impl with
  | none => st
  | some i =>
    match i.log_response st user_id session_id (responseLogData response_data) request_id now with
    | .error _ => st
    | .ok (_, st2) => st2

/-- LogManager.log_error: no-op without storage; hands the error data over
unchanged, swallowing an exception. -/
def LogManager.log_error {σ : Type} (impl : Option (LogStorageImpl σ)) (st : σ)
    (user_id session_id : String) (error_data : PyVal) (now : Nat) : σ :=
  match impl with
  | none => st
  | some i =>
    match i.log_error st user_id session_id error_data now with
    | .error _ => st
    | .ok (_, st2) => st2

/-! ## QianwenChat session builder (qianwen_client_enhanced.py) -/

/-- The chainable parameter state of one QianwenChat instance. -/
structure ChatState where
  _user_id : String
  _session_id : String
  _model : String
  _temperature : Rat
  _max_tokens : Int
  _system_message : Option String
  _search_enabled : Bool
  _memory_enabled : Bool

/-- Python `x or default` on an optional string (None and "" are falsy). -/
def pyOrStr (x : Option String) (dflt : String) : String :=
  match x with
  | some s => if s = "" then dflt else s
  | none => dflt

/-- QianwenChat construction: user and session fall back to defaults, chain
parameters start from the configured model defaults (the temperature is NOT
clamped here), memory starts from the configured enable flag. `gen_session`
models the timestamp-derived generated session id. -/
def QianwenChat.mk_chat (config : QianwenConfigM) (user_id session_id : Option String)
    (gen_session : String) : ChatState where
  _user_id := pyOrStr user_id "default_user"
  _session_id := pyOrStr session_id gen_session
  _model := config.model.default_model
  _temperature := config.model.default_temperature
  _max_tokens := config.model.default_max_tokens
  _system_message := config.model.default_system_message
  _search_enabled := false
  _memory_enabled := config.memory.enabled

/-- Chain mutator: model. -/
def QianwenChat.model (chat : ChatState) (model_name : String) : ChatState :=
  { chat with _model := model_name }

/-- Chain mutator: temperature, clamped into the unit interval. -/
def QianwenChat.temperature (chat : ChatState) (temp : Rat) : ChatState :=
  { chat with _temperature := max 0 (min 1 temp) }

/-- Chain mutator: max_tokens, clamped to at least one. -/
def QianwenChat.max_tokens (chat : ChatState) (tokens : Int) : ChatState :=
  { chat with _max_tokens := max 1 tokens }

/-- Chain mutator: system prompt. -/
def QianwenChat.system (chat : ChatState) (message : String) : ChatState :=
  { chat with _system_message := some message }

/-- Chain mutator: search toggle. -/
def QianwenChat.search (chat : ChatState) (enabled : Bool) : ChatState :=
  { chat with _search_enabled := enabled }

/-- Chain mutator: memory toggle. -/
def QianwenChat.memory (chat : ChatState) (enabled : Bool) : ChatState :=
  { chat with _memory_enabled := enabled }

/-- Chain mutator: user id. -/
def QianwenChat.user (chat : ChatState) (user_id : String) : ChatState :=
  { chat with _user_id := user_id }

/-- Chain mutator: session id. -/
def QianwenChat.session (chat : ChatState) (session_id : String) : ChatState :=
  { chat with _session_id := session_id }

/-! ## Request assembly and the ask / stream pipelines -/

/-- One entry of the outbound messages list. -/
structure RoleContent where
  role : String
  content : PyVal

/-- The memory side of the client: the MongoDB store and the manager cache
(present exactly when a memory manager exists). -/
structure MemEnv where
  store : MongoStore
  mm : MMState

/-- QianwenChat._build_messages: system prompt (when truthy), then the
history fetched with the configured max_history_length as limit (when the
builder has memory enabled and a manager exists), then the current user
message. Returns the assembled list and the updated memory state. -/
def QianwenChat.build_messages (config : QianwenConfigM) (chat : ChatState)
    (env : Option MemEnv) (message : String) : List RoleContent × Option MemEnv :=
  let sys : List RoleContent :=
    match chat._system_message with
    | some m => if m ≠ "" then [⟨"system", .str m⟩] else []
    | none => []
  match env with
  | some me =>
    if chat._memory_enabled then
      let p := MemoryManager.get_history (mongoMemImpl config.memory) me.store me.mm
        chat._user_id chat._session_id (some config.memory.max_history_length)
      let hist := p.1.map (fun m => RoleContent.mk m.role m.content)
      (sys ++ hist ++ [⟨"user", .str message⟩], some ⟨me.store, p.2⟩)
    else (sys ++ [⟨"user", .str message⟩], env)
  | none => (sys ++ [⟨"user", .str message⟩], env)

/-- One choice of a chat-completions response (only the message content is
relevant to the pipeline). -/
structure ApiChoice where
  message_content : PyVal

/-- A chat-completions response. -/
structure ApiResponse where
  choices : List ApiChoice

/-- The response dict (response.model_dump()), as far as the pipeline reads
it. -/
def responseToDict (resp : ApiResponse) : PyVal :=
  .obj [("choices", .arr (resp.choices.map
    (fun c => .obj [("message", .obj [("content", c.message_content)])])))]

/-- The request_params dict of ask / stream. -/
def requestParamsDict (chat : ChatState) (messages : List RoleContent) (stream : Bool) : PyVal :=
  let base : List (String × PyVal) :=
    [("model", .str chat._model),
     ("messages", .arr (messages.map (fun m => .obj [("role", .str m.role), ("content", m.content)]))),
     ("temperature", .float chat._temperature),
     ("max_tokens", .num chat._max_tokens)] ++
    (if stream then [("stream", .bool true)] else [])
  let withTools :=
    if chat._search_enabled then
      base ++ [("tools", .arr [.obj [("type", .str "web_search"),
        ("web_search", .obj [("enable", .bool true)])]])]
    else base
  .obj withTools

/-- The error_data dict logged on failure. -/
def errorLogData (e : String) (request_params : PyVal) : PyVal :=
  .obj [("error_type", .str "Exception"), ("error_message", .str e),
        ("request_params", request_params)]

/-- Everything QianwenChat.ask leaves behind. -/
structure AskResult (τ : Type) where
  result : Except String ApiResponse
  env : Option MemEnv
  logState : τ

/-- QianwenChat.ask: build the messages, log the request, issue the API call
(its outcome is the `api` argument), log the response, and on success with
memory enabled persist the user message and then the assistant reply (the
latter only when the response has a choice). On failure, log an error and
wrap the exception; nothing is persisted to memory. -/
def QianwenChat.ask {τ : Type} (config : QianwenConfigM) (chat : ChatState)
    (env : Option MemEnv) (limpl : Option (LogStorageImpl τ)) (lst : τ)
    (message : String) (api : Except String ApiResponse) (freshId : String) (now : Nat) :
    AskResult τ :=
  let p := QianwenChat.build_messages config chat env message
  let rp := requestParamsDict chat p.1 false
  let lp := LogManager.log_request limpl lst chat._user_id chat._session_id rp none freshId now
  match api with
  | .error e =>
    let lst2 := LogManager.log_error limpl lp.2 chat._user_id chat._session_id
      (errorLogData e rp) now
    { result := .error ("API call failed: " ++ e), env := p.2, logState := lst2 }
  | .ok resp =>
    let lst2 := LogManager.log_response limpl lp.2 chat._user_id chat._session_id
      (responseToDict resp) (some lp.1) now
    let env2 :=
      if chat._memory_enabled then
        match p.2 with
        | none => p.2
        | some me =>
          let q := MemoryManager.save_message (mongoMemImpl config.memory) me.store me.mm
            ⟨"user", .str message, now, chat._user_id, chat._session_id, []⟩ now
          match resp.choices with
          | [] => some ⟨q.1, q.2⟩
          | c :: _ =>
            let q2 := MemoryManager.save_message (mongoMemImpl config.memory) q.1 q.2
              ⟨"assistant", c.message_content, now + 1, chat._user_id, chat._session_id, []⟩
              (now + 1)
            some ⟨q2.1, q2.2⟩
      else p.2
    { result := .ok resp, env := env2, logState := lst2 }

/-- One choice of a streaming chunk (delta content may be absent). -/
structure DeltaChoice where
  delta_content : Option String

/-- One streaming chunk. -/
structure StreamChunk where
  choices : List DeltaChoice

/-- The content fragment a chunk carries to the caller ("" when the chunk
has no choices or no delta content). -/
def chunkFragment (c : StreamChunk) : String :=
  match c.choices with
  | ch :: _ =>
    match ch.delta_content with
    | some s => s
    | none => ""
  | [] => ""

/-- One step of the stream accumulation: append the delta content when the
chunk has choices and the content is truthy. -/
def streamAccumStep (acc : String) (c : StreamChunk) : String :=
  match c.choices with
  | ch :: _ =>
    match ch.delta_content with
    | some s => if s ≠ "" then acc ++ s else acc
    | none => acc
  | [] => acc

/-- full_content after consuming the whole stream. -/
def streamAccum (chunks : List StreamChunk) : String :=
  chunks.foldl streamAccumStep ""

/-- Everything QianwenChat.stream leaves behind. -/
structure StreamResult (τ : Type) where
  yielded : List StreamChunk
  result : Except String Unit
  env : Option MemEnv
  logState : τ

/-- QianwenChat.stream: chunks are yielded to the caller in arrival order
while full_content accumulates; `chunks` is the sequence the stream produced
before `outcome` (success, or the exception that interrupted it). Only a
completed stream with memory enabled and non-empty accumulated content
persists the turn (user message, then assistant message carrying the
accumulated content) and logs the response; a failure logs an error and
persists nothing. -/
def QianwenChat.stream {τ : Type} (config : QianwenConfigM) (chat : ChatState)
    (env : Option MemEnv) (limpl : Option (LogStorageImpl τ)) (lst : τ)
    (message : String) (chunks : List StreamChunk) (outcome : Except String Unit)
    (freshId : String) (now : Nat) : StreamResult τ :=
  let p := QianwenChat.build_messages config chat env message
  let rp := requestParamsDict chat p.1 true
  let lp := LogManager.log_request limpl lst chat._user_id chat._session_id rp none freshId now
  match outcome with
  | .error e =>
    let lst2 := LogManager.log_error limpl lp.2 chat._user_id chat._session_id
      (errorLogData e rp) now
    { yielded := chunks, result := .error ("stream API call failed: " ++ e),
      env := p.2, logState := lst2 }
  | .ok _ =>
    let full_content := streamAccum chunks
    let env2 :=
      if chat._memory_enabled ∧ full_content ≠ "" then
        match p.2 with
        | none => p.2
        | some me =>
          let q := MemoryManager.save_message (mongoMemImpl config.memory) me.store me.mm
            ⟨"user", .str message, now, chat._user_id, chat._session_id, []⟩ now
          let q2 := MemoryManager.save_message (mongoMemImpl config.memory) q.1 q.2
            ⟨"assistant", .str full_content, now + 1, chat._user_id, chat._session_id, []⟩
            (now + 1)
          some ⟨q2.1, q2.2⟩
      else p.2
    let lst2 := LogManager.log_response limpl lp.2 chat._user_id chat._session_id
      (.obj [("content", .str full_content), ("stream", .bool true)]) (some lp.1) now
    { yielded := chunks, result := .ok (), env := env2, logState := lst2 }

/-! ## Claim theorems -/

/-- C7: whenever storage is enabled and a custom storage instance is
supplied, both factories return exactly that custom instance — never a
built-in backend — regardless of the storage-type tag (including
"mongodb"). -/
theorem C7_custom_storage_priority (mcfg : MemoryConfig) (lcfg : LogConfig) (hm hl : Nat)
    (hme : mcfg.enabled = true) (hmc : mcfg.custom_storage = some hm)
    (hle : lcfg.enabled = true) (hlc : lcfg.custom_storage = some hl) :
    StorageFactory.create_memory_storage mcfg = .ok (some (.custom hm)) ∧
    StorageFactory.create_log_storage lcfg = .ok (some (.custom hl)) ∧
    MemStorageChoice.custom hm ≠ MemStorageChoice.mongo ∧
    LogStorageChoice.custom hl ≠ LogStorageChoice.mongo := by
  refine ⟨?_, ?_, by simp, by simp⟩
  · simp [StorageFactory.create_memory_storage, hme, hmc]
  · simp [StorageFactory.create_log_storage, hle, hlc]

/-- Witness for C7 with the storage-type tag "mongodb" matching the
built-in backend name. -/
theorem C7_custom_storage_priority_witness :
    StorageFactory.create_memory_storage
      { enabled := true, storage_type := "mongodb", custom_storage := some 7 } =
        .ok (some (.custom 7)) ∧
    StorageFactory.create_log_storage
      { enabled := true, storage_type := "mongodb", custom_storage := some 9 } =
        .ok (some (.custom 9)) ∧
    MemStorageChoice.custom 7 ≠ MemStorageChoice.mongo ∧
    LogStorageChoice.custom 9 ≠ LogStorageChoice.mongo :=
  C7_custom_storage_priority
    { enabled := true, storage_type := "mongodb", custom_storage := some 7 }
    { enabled := true, storage_type := "mongodb", custom_storage := some 9 }
    7 9 rfl rfl rfl rfl

/-- C5: with memory disabled the factory yields no storage, and all three
MemoryManager operations over an absent storage are no-ops that never
contact a storage implementation: save and clear return the state unchanged
and history returns the empty list, for every input. -/
theorem C5_memory_disabled_noop {σ : Type} (mcfg : MemoryConfig) (hm : mcfg.enabled = false)
    (st : σ) (mm : MMState) (msg : ChatMessage) (now : Nat) (u s : String)
    (limit : Option Int) :
    StorageFactory.create_memory_storage mcfg = .ok none ∧
    MemoryManager.save_messageOpt (none : Option (MemStorageImpl σ)) st mm msg now = (st, mm) ∧
    MemoryManager.get_historyOpt (none : Option (MemStorageImpl σ)) st mm u s limit = ([], mm) ∧
    MemoryManager.clear_historyOpt (none : Option (MemStorageImpl σ)) st mm u s = (st, mm) := by
  refine ⟨?_, rfl, rfl, rfl⟩
  simp [StorageFactory.create_memory_storage, hm]

/-- A connected, empty MongoDB conversations collection. -/
def mongoEmptyStore : MongoStore := ⟨true, []⟩

/-- A present but empty manager cache. -/
def mmEmptyCache : MMState := ⟨some []⟩

/-- A sample user message. -/
def msgHi : ChatMessage := ⟨"user", .str "hi", 0, "u", "s", []⟩

/-- Witness for C5 over the MongoDB state type. -/
theorem C5_memory_disabled_noop_witness :
    StorageFactory.create_memory_storage { enabled := false } = .ok none ∧
    MemoryManager.save_messageOpt (none : Option (MemStorageImpl MongoStore)) mongoEmptyStore
      mmEmptyCache msgHi 0 = (mongoEmptyStore, mmEmptyCache) ∧
    MemoryManager.get_historyOpt (none : Option (MemStorageImpl MongoStore)) mongoEmptyStore
      mmEmptyCache "u" "s" none = ([], mmEmptyCache) ∧
    MemoryManager.clear_historyOpt (none : Option (MemStorageImpl MongoStore)) mongoEmptyStore
      mmEmptyCache "u" "s" = (mongoEmptyStore, mmEmptyCache) :=
  C5_memory_disabled_noop { enabled := false } rfl mongoEmptyStore mmEmptyCache msgHi 0 "u" "s" none

/-- A configuration whose default temperature lies outside the unit
interval (the configuration layer performs no validation). -/
def cfgHotTemp : QianwenConfigM :=
  { model := { default_temperature := 3/2 } }

/-- C9 counterexample: a builder starts from the unclamped configured
default temperature, and mutators other than the temperature mutator leave
it untouched, so after a mutator call (here: the model mutator) the
effective temperature can lie outside the unit interval. -/
theorem C9_temperature_counterexample :
    ¬ ((QianwenChat.model (QianwenChat.mk_chat cfgHotTemp none none "s0")
        "qwen-max")._temperature ≤ 1) := by
  have h : (QianwenChat.model (QianwenChat.mk_chat cfgHotTemp none none "s0")
      "qwen-max")._temperature = 3/2 := rfl
  rw [h]
  norm_num

/-- C9 amended: the temperature mutator clamps its argument into the unit
interval (with the example values from the claim), and every other mutator
leaves the effective temperature unchanged — so the effective temperature
lies in the unit interval after a temperature call, and after any other
mutator call exactly when it already did before. -/
theorem C9_temperature_clamp (chat : ChatState) (t : Rat) (m u s sm : String)
    (tok : Int) (b b2 : Bool) :
    (QianwenChat.temperature chat t)._temperature = max 0 (min 1 t) ∧
    0 ≤ (QianwenChat.temperature chat t)._temperature ∧
    (QianwenChat.temperature chat t)._temperature ≤ 1 ∧
    (QianwenChat.temperature chat (-(1/2)))._temperature = 0 ∧
    (QianwenChat.temperature chat (17/10))._temperature = 1 ∧
    (QianwenChat.temperature chat (2/5))._temperature = 2/5 ∧
    (QianwenChat.model chat m)._temperature = chat._temperature ∧
    (QianwenChat.max_tokens chat tok)._temperature = chat._temperature ∧
    (QianwenChat.system chat sm)._temperature = chat._temperature ∧
    (QianwenChat.search chat b)._temperature = chat._temperature ∧
    (QianwenChat.memory chat b2)._temperature = chat._temperature ∧
    (QianwenChat.user chat u)._temperature = chat._temperature ∧
    (QianwenChat.session chat s)._temperature = chat._temperature := by
  refine ⟨rfl, ?_, ?_, ?_, ?_, ?_, rfl, rfl, rfl, rfl, rfl, rfl, rfl⟩
  · exact le_max_left 0 _
  · exact max_le (by norm_num) (min_le_left 1 t)
  · show max 0 (min 1 (-(1/2) : Rat)) = 0
    rw [min_eq_right (by norm_num), max_eq_left (by norm_num)]
  · show max 0 (min 1 (17/10 : Rat)) = 1
    rw [min_eq_left (by norm_num), max_eq_right (by norm_num)]
  · show max 0 (min 1 (2/5 : Rat)) = 2/5
    rw [min_eq_right (by norm_num), max_eq_right (by norm_num)]

/-- A log configuration with request logging disabled and a custom storage
attached. -/
def lcfgNoRequests : LogConfig :=
  { log_requests := false, storage_type := "custom", custom_storage := some 1 }

/-- A connected, empty MongoDB log collection. -/
def emptyLogState : MongoLogState := ⟨true, []⟩

/-- C6 counterexample: the LogManager performs no per-kind boolean check
itself — the check lives in the built-in MongoDB storage — so with a custom
log storage attached, a logRequest call records a document even though
log_requests is false in the configuration. -/
theorem C6_perkind_counterexample :
    lcfgNoRequests.log_requests = false ∧
    (LogManager.log_request (some (recordAllLogImpl lcfgNoRequests)) emptyLogState
      "u" "s" (.obj []) none "rid-1" 0).2.docs.length = 1 :=
  ⟨rfl, rfl⟩

/-- C6 amended: the per-kind booleans are checked inside the built-in
MongoDB log storage, not in the LogManager; through the built-in backend a
false boolean makes the corresponding call (and its lift through the
LogManager) a no-op that records nothing, while a custom storage is invoked
regardless of the booleans. -/
theorem C6_perkind_check_in_mongo (lcfg : LogConfig) (st : MongoLogState)
    (u s : String) (d rd : PyVal) (rid : Option String) (fresh : String) (now : Nat) :
    (lcfg.log_requests = false →
      MongoLogStorage.log_request lcfg st u s d now = .ok (false, st) ∧
      LogManager.log_request (some (mongoLogImpl lcfg)) st u s rd rid fresh now =
        (rid.getD fresh, st)) ∧
    (lcfg.log_responses = false →
      MongoLogStorage.log_response lcfg st u s d rid now = .ok (false, st) ∧
      LogManager.log_response (some (mongoLogImpl lcfg)) st u s rd rid now = st) ∧
    (lcfg.log_errors = false →
      MongoLogStorage.log_error lcfg st u s d now = .ok (false, st) ∧
      LogManager.log_error (some (mongoLogImpl lcfg)) st u s d now = st) := by
  refine ⟨fun h => ⟨?_, ?_⟩, fun h => ⟨?_, ?_⟩, fun h => ⟨?_, ?_⟩⟩ <;>
    simp [MongoLogStorage.log_request, MongoLogStorage.log_response,
      MongoLogStorage.log_error, LogManager.log_request, LogManager.log_response,
      LogManager.log_error, mongoLogImpl, h]

/-- A log configuration with all three per-kind booleans disabled. -/
def lcfgAllOff : LogConfig :=
  { log_requests := false, log_responses := false, log_errors := false }

/-- Witness for C6 amended, over the built-in backend with every per-kind
boolean false. -/
theorem C6_perkind_check_in_mongo_witness :
    MongoLogStorage.log_request lcfgAllOff emptyLogState "u" "s" .null 0 =
      .ok (false, emptyLogState) ∧
    LogManager.log_request (some (mongoLogImpl lcfgAllOff)) emptyLogState "u" "s"
      (.obj []) none "rid-1" 0 = ("rid-1", emptyLogState) ∧
    MongoLogStorage.log_response lcfgAllOff emptyLogState "u" "s" .null none 0 =
      .ok (false, emptyLogState) ∧
    LogManager.log_response (some (mongoLogImpl lcfgAllOff)) emptyLogState "u" "s"
      (.obj []) none 0 = emptyLogState ∧
    MongoLogStorage.log_error lcfgAllOff emptyLogState "u" "s" .null 0 =
      .ok (false, emptyLogState) ∧
    LogManager.log_error (some (mongoLogImpl lcfgAllOff)) emptyLogState "u" "s"
      (.obj []) 0 = emptyLogState := by
  have h := C6_perkind_check_in_mongo lcfgAllOff emptyLogState "u" "s" .null (.obj [])
    none "rid-1" 0
  exact ⟨(h.1 rfl).1, (h.1 rfl).2, (h.2.1 rfl).1, (h.2.1 rfl).2, (h.2.2 rfl).1, (h.2.2 rfl).2⟩

/-- C4: whenever an underlying storage implementation raises, the manager
operation returns normally and degrades: history yields the empty list (on
the storage-consulting path, i.e. a cache miss), save and clear leave state
untouched, the three log operations record nothing, and logRequest still
returns its correlation id. -/
theorem C4_storage_errors_swallowed {σ τ : Type} (impl : MemStorageImpl σ)
    (limpl : LogStorageImpl τ) (st : σ) (lst : τ) (mm : MMState) (msg : ChatMessage)
    (now : Nat) (u s : String) (limit : Option Int) (rd d : PyVal) (rid : Option String)
    (fresh : String) (e1 e2 e3 e4 e5 e6 : String) :
    (impl.save_message st msg.user_id msg.session_id msg.role (contentToStr msg.content)
        msg.metadata now = .error e1 →
      MemoryManager.save_message impl st mm msg now = (st, mm)) ∧
    (cacheLookup mm (cacheKey u s) = none →
      impl.get_history st u s limit = .error e2 →
      MemoryManager.get_history impl st mm u s limit = ([], mm)) ∧
    (impl.clear_history st u s = .error e3 →
      MemoryManager.clear_history impl st mm u s = (st, mm)) ∧
    (limpl.log_request lst u s (requestLogData (rid.getD fresh) rd) now = .error e4 →
      LogManager.log_request (some limpl) lst u s rd rid fresh now = (rid.getD fresh, lst)) ∧
    (limpl.log_response lst u s (responseLogData rd) rid now = .error e5 →
      LogManager.log_response (some limpl) lst u s rd rid now = lst) ∧
    (limpl.log_error lst u s d now = .error e6 →
      LogManager.log_error (some limpl) lst u s d now = lst) := by
  refine ⟨fun h => ?_, fun hc h => ?_, fun h => ?_, fun h => ?_, fun h => ?_, fun h => ?_⟩
  · simp [MemoryManager.save_message, h]
  · simp [MemoryManager.get_history, hc, h]
  · simp [MemoryManager.clear_history, h]
  · simp [LogManager.log_request, h]
  · simp [LogManager.log_response, h]
  · simp [LogManager.log_error, h]

/-- A history storage whose every operation raises. -/
def failMemImpl : MemStorageImpl Unit where
  save_message := fun _ _ _ _ _ _ _ => .error "boom"
  get_history := fun _ _ _ _ => .error "boom"
  clear_history := fun _ _ _ => .error "boom"

/-- A log storage whose every operation raises. -/
def failLogImpl : LogStorageImpl Unit where
  log_request := fun _ _ _ _ _ => .error "boom"
  log_response := fun _ _ _ _ _ _ => .error "boom"
  log_error := fun _ _ _ _ _ => .error "boom"

/-- Witness for C4 over always-raising storage implementations. -/
theorem C4_storage_errors_swallowed_witness :
    MemoryManager.save_message failMemImpl () mmEmptyCache msgHi 0 = ((), mmEmptyCache) ∧
    MemoryManager.get_history failMemImpl () mmEmptyCache "u" "s" none = ([], mmEmptyCache) ∧
    MemoryManager.clear_history failMemImpl () mmEmptyCache "u" "s" = ((), mmEmptyCache) ∧
    LogManager.log_request (some failLogImpl) () "u" "s" (.obj []) none "rid-1" 0 =
      ("rid-1", ()) ∧
    LogManager.log_response (some failLogImpl) () "u" "s" (.obj []) none 0 = () ∧
    LogManager.log_error (some failLogImpl) () "u" "s" (.obj []) 0 = () := by
  have h := C4_storage_errors_swallowed failMemImpl failLogImpl () () mmEmptyCache msgHi
    0 "u" "s" none (.obj []) (.obj []) none "rid-1" "boom" "boom" "boom" "boom" "boom" "boom"
  exact ⟨h.1 rfl, h.2.1 rfl rfl, h.2.2.1 rfl, h.2.2.2.1 rfl, h.2.2.2.2.1 rfl, h.2.2.2.2.2 rfl⟩

/-- Save one message into an empty session and read the history back, on
the cache-miss path (the fresh cache does not hold the session key, so the
read goes through storage and its json-decode step). -/
def saveThenRead (config : QianwenConfigM) (content : PyVal) (u sess : String) (now : Nat) :
    List ChatMessage :=
  let p := MemoryManager.save_message (mongoMemImpl config.memory) mongoEmptyStore mmEmptyCache
    ⟨"user", content, now, u, sess, []⟩ now
  (MemoryManager.get_history (mongoMemImpl config.memory) p.1 p.2 u sess none).1

theorem saveThenRead_eq (config : QianwenConfigM) (s u sess : String) (now : Nat) :
    saveThenRead config (.str s) u sess now = [⟨"user", tryJsonLoads s, now, u, sess, []⟩] := by
  unfold saveThenRead
  simp only [MemoryManager.save_message, mongoMemImpl, MongoMemoryStorage.save_message,
    mongoEmptyStore, mmEmptyCache, contentToStr, MemoryManager.get_history,
    MongoMemoryStorage.get_history, cacheLookup, List.lookup, List.nil_append]
  simp [List.filter, List.insertionSort, List.orderedInsert, mongoLimit]
  split
  · simp
    omega
  · simp

/-- C10: the save-then-read round trip is not the identity on string
content: the read json-decodes every stored content string, so a content
string that is valid JSON comes back as the decoded value — which is never
the original string — and a content string that json cannot parse comes
back unchanged. -/
theorem C10_json_roundtrip (config : QianwenConfigM) (s u sess : String) (now : Nat) :
    (∀ v, jsonLoads s = some v →
      saveThenRead config (.str s) u sess now = [⟨"user", v, now, u, sess, []⟩] ∧
      v ≠ .str s) ∧
    (jsonLoads s = none →
      saveThenRead config (.str s) u sess now = [⟨"user", .str s, now, u, sess, []⟩]) := by
  constructor
  · intro v hv
    refine ⟨?_, jsonLoads_ne_input s v hv⟩
    rw [saveThenRead_eq]
    simp [tryJsonLoads, hv]
  · intro hv
    rw [saveThenRead_eq]
    simp [tryJsonLoads, hv]

/-- Witness for C10: "123" decodes to the int 123, an object literal
decodes to a dict, and plain text survives unchanged. -/
theorem C10_json_roundtrip_witness :
    (saveThenRead {} (.str "123") "u" "s" 5 = [⟨"user", .num 123, 5, "u", "s", []⟩] ∧
      PyVal.num 123 ≠ .str "123") ∧
    (saveThenRead {} (.str "\x7b\"a\": 1\x7d") "u" "s" 5 =
        [⟨"user", .obj [("a", .num 1)], 5, "u", "s", []⟩] ∧
      PyVal.obj [("a", .num 1)] ≠ .str "\x7b\"a\": 1\x7d") ∧
    saveThenRead {} (.str "plain text") "u" "s" 5 =
      [⟨"user", .str "plain text", 5, "u", "s", []⟩] :=
  ⟨(C10_json_roundtrip {} "123" "u" "s" 5).1 (.num 123) rfl,
   (C10_json_roundtrip {} "\x7b\"a\": 1\x7d" "u" "s" 5).1 (.obj [("a", .num 1)]) rfl,
   (C10_json_roundtrip {} "plain text" "u" "s" 5).2 rfl⟩

/-- A configuration with max_history_length = 2. -/
def cfgWindow2 : QianwenConfigM := { memory := { max_history_length := 2 } }

/-- A builder for user "u", session "s" under cfgWindow2 (memory enabled by
default, no system prompt). -/
def chatC1 : ChatState := QianwenChat.mk_chat cfgWindow2 (some "u") (some "s") "gen"

/-- The stored session: three prior turns t1, t2, t3 with ascending
timestamps 1, 2, 3. -/
def storeT123 : MongoStore :=
  ⟨true, [⟨"u", "s", "user", "t1", [], 1⟩,
          ⟨"u", "s", "assistant", "t2", [], 2⟩,
          ⟨"u", "s", "user", "t3", [], 3⟩]⟩

/-- The same three turns as cached messages under the session key. -/
def warmMMT123 : MMState :=
  ⟨some [("u:s", [⟨"user", .str "t1", 1, "u", "s", []⟩,
                  ⟨"assistant", .str "t2", 2, "u", "s", []⟩,
                  ⟨"user", .str "t3", 3, "u", "s", []⟩])]⟩

/-- C1: with max_history_length = 2 and prior turns t1, t2, t3, the history
context assembled into an outbound ask request on a cold cache is [t1, t2]
— the OLDEST two (ascending sort plus cursor limit), not the most recent
two the specification requires — while the warm-cache path of the very same
manager returns the most recent two [t2, t3]. -/
theorem C1_history_window_bug :
    (QianwenChat.build_messages cfgWindow2 chatC1 (some ⟨storeT123, mmEmptyCache⟩) "q").1 =
      [⟨"user", .str "t1"⟩, ⟨"assistant", .str "t2"⟩, ⟨"user", .str "q"⟩] ∧
    (QianwenChat.build_messages cfgWindow2 chatC1 (some ⟨storeT123, warmMMT123⟩) "q").1 =
      [⟨"assistant", .str "t2"⟩, ⟨"user", .str "t3"⟩, ⟨"user", .str "q"⟩] :=
  ⟨rfl, rfl⟩

/-- Timestamp order on returned messages. -/
def msgTsLe (a b : ChatMessage) : Prop := a.timestamp ≤ b.timestamp

/-- Timestamp order on history records. -/
def histTsLe (a b : HistDoc) : Prop := a.timestamp ≤ b.timestamp

theorem mongoLimit_pairwise (mc : MemoryConfig) (limit : Option Int) (sorted : List StoredMsg)
    (h : List.Pairwise tsLe sorted) : List.Pairwise tsLe (mongoLimit mc limit sorted) := by
  rcases limit with _ | n <;> simp only [mongoLimit] <;>
    (repeat' split) <;>
    first
      | exact List.Pairwise.sublist (List.take_sublist _ _) h
      | exact h

theorem mongoLimit_length_some (mc : MemoryConfig) (n : Int) (sorted : List StoredMsg)
    (hne : n ≠ 0) : (mongoLimit mc (some n) sorted).length ≤ n.natAbs := by
  simp only [mongoLimit, if_pos hne]
  simp [List.length_take]

theorem mongoLimit_length_none (mc : MemoryConfig) (sorted : List StoredMsg)
    (hpos : 0 < mc.max_history_length) :
    (mongoLimit mc none sorted).length ≤ mc.max_history_length.toNat := by
  simp only [mongoLimit]
  rw [if_pos (by omega : mc.max_history_length > 0)]
  simp [List.length_take]

theorem mongo_get_history_spec (mc : MemoryConfig) (st : MongoStore) (u s : String)
    (limit : Option Int) :
    ∃ docs, MongoMemoryStorage.get_history mc st u s limit = .ok docs ∧
      List.Pairwise histTsLe docs ∧
      (∀ n : Int, limit = some n → n ≠ 0 → docs.length ≤ n.natAbs) ∧
      (limit = none → 0 < mc.max_history_length → docs.length ≤ mc.max_history_length.toNat) := by
  unfold MongoMemoryStorage.get_history
  split
  · exact ⟨[], rfl, .nil, by simp, by simp⟩
  · refine ⟨_, rfl, ?_, ?_, ?_⟩
    · exact List.Pairwise.map _ (fun a b hab => hab)
        (mongoLimit_pairwise _ _ _ (List.sorted_insertionSort tsLe _))
    · intro n hn hne
      subst hn
      simpa using mongoLimit_length_some mc n _ hne
    · intro hn hpos
      subst hn
      simpa using mongoLimit_length_none mc _ hpos

theorem C3_history_sorted_bounded (mc : MemoryConfig) (st : MongoStore) (mm : MMState)
    (u s : String) (limit : Option Int) :
    (cacheLookup mm (cacheKey u s) = none →
      List.Pairwise msgTsLe (MemoryManager.get_history (mongoMemImpl mc) st mm u s limit).1 ∧
      (∀ n : Int, limit = some n → 0 < n →
        (MemoryManager.get_history (mongoMemImpl mc) st mm u s limit).1.length ≤ n.toNat) ∧
      (limit = none → 0 < mc.max_history_length →
        (MemoryManager.get_history (mongoMemImpl mc) st mm u s limit).1.length ≤
          mc.max_history_length.toNat)) ∧
    (∀ cached, cacheLookup mm (cacheKey u s) = some cached →
      (List.Pairwise msgTsLe cached →
        List.Pairwise msgTsLe (MemoryManager.get_history (mongoMemImpl mc) st mm u s limit).1) ∧
      (∀ n : Int, limit = some n → 0 < n →
        (MemoryManager.get_history (mongoMemImpl mc) st mm u s limit).1.length ≤ n.toNat)) := by
  constructor
  · intro hmiss
    obtain ⟨docs, hdocs, hpw, hsome, hnone⟩ := mongo_get_history_spec mc st u s limit
    have h1 : (MemoryManager.get_history (mongoMemImpl mc) st mm u s limit).1 =
        docs.map (fun d => ⟨d.role, tryJsonLoads d.content, d.timestamp, u, s, d.metadata⟩) := by
      simp only [MemoryManager.get_history, hmiss, mongoMemImpl, hdocs]
      cases mm.cache <;> simp
    rw [h1]
    refine ⟨List.Pairwise.map _ (fun a b hab => hab) hpw, ?_, ?_⟩
    · intro n hn hpos
      have := hsome n hn (by omega)
      simp only [List.length_map]
      omega
    · intro hn hpos
      have := hnone hn hpos
      simp only [List.length_map]
      omega
  · intro cached hhit
    constructor
    · intro hsort
      rcases limit with _ | n
      · simp only [MemoryManager.get_history, hhit]
        exact hsort
      · simp only [MemoryManager.get_history, hhit]
        split
        · simp only [pySliceNeg]
          split
          · exact List.Pairwise.sublist (List.drop_sublist _ _) hsort
          · exact List.Pairwise.sublist (List.drop_sublist _ _) hsort
        · exact hsort
    · intro n hn hpos
      subst hn
      simp only [MemoryManager.get_history, hhit]
      rw [if_pos (by omega : n ≠ 0)]
      simp only [pySliceNeg]
      rw [if_pos hpos]
      simp only [List.length_drop]
      omega

instance : DecidableRel msgTsLe := fun a b => Nat.decLe a.timestamp b.timestamp

def cfgLimit1 : QianwenConfigM := { memory := { max_history_length := 1 } }

def storeOneMsg : MongoStore := ⟨true, [⟨"u", "s", "user", "hello", [], 1⟩]⟩

def c3Step1 : List ChatMessage × MMState :=
  MemoryManager.get_history (mongoMemImpl cfgLimit1.memory) storeOneMsg mmEmptyCache "u" "s" none

def c3Step2 : MongoStore × MMState :=
  MemoryManager.save_message (mongoMemImpl cfgLimit1.memory) storeOneMsg c3Step1.2
    ⟨"user", .str "again", 2, "u", "s", []⟩ 2

def c3Result : List ChatMessage :=
  (MemoryManager.get_history (mongoMemImpl cfgLimit1.memory) c3Step2.1 c3Step2.2 "u" "s" none).1

theorem C3_limit_counterexample :
    cfgLimit1.memory.max_history_length = 1 ∧
    c3Result.length = 2 ∧
    ¬ (c3Result.length ≤ cfgLimit1.memory.max_history_length.toNat) :=
  ⟨rfl, rfl, by decide⟩

theorem C3_history_sorted_bounded_witness :
    List.Pairwise msgTsLe
      (MemoryManager.get_history (mongoMemImpl cfgWindow2.memory) storeT123 mmEmptyCache
        "u" "s" (some 2)).1 ∧
    (MemoryManager.get_history (mongoMemImpl cfgWindow2.memory) storeT123 mmEmptyCache
      "u" "s" (some 2)).1.length ≤ (2 : Int).toNat ∧
    List.Pairwise msgTsLe
      (MemoryManager.get_history (mongoMemImpl cfgWindow2.memory) storeT123 warmMMT123
        "u" "s" (some 2)).1 ∧
    (MemoryManager.get_history (mongoMemImpl cfgWindow2.memory) storeT123 warmMMT123
      "u" "s" (some 2)).1.length ≤ (2 : Int).toNat := by
  have hA := C3_history_sorted_bounded cfgWindow2.memory storeT123 mmEmptyCache "u" "s" (some 2)
  have hB := C3_history_sorted_bounded cfgWindow2.memory storeT123 warmMMT123 "u" "s" (some 2)
  obtain ⟨h1, h2, h3⟩ := hA.1 rfl
  have hc := hB.2 _ rfl
  exact ⟨h1, h2 2 rfl (by norm_num), hc.1 (by decide), hc.2 2 rfl (by norm_num)⟩

/-- The stored documents behind an optional memory environment. -/
def envDocs : Option MemEnv → List StoredMsg
  | some me => me.store.docs
  | none => []

/-- The document a message save inserts. -/
def mkDoc (msg : ChatMessage) (now : Nat) : StoredMsg :=
  ⟨msg.user_id, msg.session_id, msg.role, contentToStr msg.content, msg.metadata, now⟩

theorem build_messages_env (config : QianwenConfigM) (chat : ChatState) (me : MemEnv)
    (message : String) :
    ∃ mm2, (QianwenChat.build_messages config chat (some me) message).2 = some ⟨me.store, mm2⟩ := by
  simp only [QianwenChat.build_messages]
  split
  · exact ⟨_, rfl⟩
  · exact ⟨me.mm, rfl⟩

theorem mem_save_store (mc : MemoryConfig) (st : MongoStore) (mm : MMState)
    (msg : ChatMessage) (now : Nat) (hconn : st.connected = true) :
    (MemoryManager.save_message (mongoMemImpl mc) st mm msg now).1 =
      { st with docs := st.docs ++ [mkDoc msg now] } := by
  simp [MemoryManager.save_message, mongoMemImpl, MongoMemoryStorage.save_message,
    hconn, mkDoc]
  rcases hmm : mm.cache with _ | c
  · simp [hmm]
  · rcases hl : List.lookup (cacheKey msg.user_id msg.session_id) c with _ | cached <;>
      simp [hmm, hl]

theorem C2_turn_persistence {τ : Type} (config : QianwenConfigM) (chat : ChatState)
    (me : MemEnv) (limpl : Option (LogStorageImpl τ)) (lst : τ) (message freshId : String)
    (now : Nat) :
    (∀ e, envDocs ((QianwenChat.ask config chat (some me) limpl lst message (.error e)
        freshId now).env) = me.store.docs) ∧
    (∀ (resp : ApiResponse) (c : ApiChoice) (rest : List ApiChoice),
      resp.choices = c :: rest → chat._memory_enabled = true → me.store.connected = true →
      envDocs ((QianwenChat.ask config chat (some me) limpl lst message (.ok resp)
          freshId now).env) = me.store.docs ++
        [⟨chat._user_id, chat._session_id, "user", message, [], now⟩,
         ⟨chat._user_id, chat._session_id, "assistant", contentToStr c.message_content, [],
          now + 1⟩]) ∧
    (∀ chunks e, envDocs ((QianwenChat.stream config chat (some me) limpl lst message chunks
        (.error e) freshId now).env) = me.store.docs) := by
  obtain ⟨mm2, hmm⟩ := build_messages_env config chat me message
  refine ⟨?_, ?_, ?_⟩
  · intro e
    show envDocs (QianwenChat.build_messages config chat (some me) message).2 = me.store.docs
    rw [hmm]
    rfl
  · intro resp c rest hch hmem hconn
    unfold QianwenChat.ask
    simp only []
    rw [hmem, hmm, hch]
    simp only [envDocs]
    rw [mem_save_store config.memory me.store mm2
      ⟨"user", .str message, now, chat._user_id, chat._session_id, []⟩ now hconn]
    simp only [mkDoc, contentToStr]
    have h2 := mem_save_store config.memory
      { connected := me.store.connected,
        docs := me.store.docs ++
          [⟨chat._user_id, chat._session_id, "user", message, [], now⟩] }
      (MemoryManager.save_message (mongoMemImpl config.memory) me.store mm2
        ⟨"user", .str message, now, chat._user_id, chat._session_id, []⟩ now).2
      ⟨"assistant", c.message_content, now + 1, chat._user_id, chat._session_id, []⟩ (now + 1)
      (by simpa using hconn)
    rw [h2]
    simp [mkDoc, contentToStr]
  · intro chunks e
    show envDocs (QianwenChat.build_messages config chat (some me) message).2 = me.store.docs
    rw [hmm]
    rfl

/-- A builder state bound to user "u", session "s" with memory enabled. -/
def chatW : ChatState :=
  ⟨"u", "s", "qwen-plus", 7/10, 2000, none, false, true⟩

/-- Witness for C2: a failing call persists nothing; a successful call with
one choice persists exactly the user message then the assistant reply. -/
theorem C2_turn_persistence_witness :
    envDocs ((QianwenChat.ask {} chatW (some ⟨mongoEmptyStore, mmEmptyCache⟩)
        (none : Option (LogStorageImpl Unit)) () "hi" (.error "down") "rid" 7).env) =
      mongoEmptyStore.docs ∧
    envDocs ((QianwenChat.ask {} chatW (some ⟨mongoEmptyStore, mmEmptyCache⟩)
        (none : Option (LogStorageImpl Unit)) () "hi"
        (.ok ⟨[⟨.str "hello back"⟩]⟩) "rid" 7).env) =
      mongoEmptyStore.docs ++
        [⟨"u", "s", "user", "hi", [], 7⟩,
         ⟨"u", "s", "assistant", "hello back", [], 8⟩] := by
  have h := C2_turn_persistence {} chatW ⟨mongoEmptyStore, mmEmptyCache⟩
    (none : Option (LogStorageImpl Unit)) () "hi" "rid" 7
  refine ⟨h.1 "down", ?_⟩
  have h2 := h.2.1 ⟨[⟨.str "hello back"⟩]⟩ ⟨.str "hello back"⟩ [] rfl rfl rfl
  simpa [contentToStr] using h2

theorem str_foldl_append (l : List String) (acc : String) :
    l.foldl (· ++ ·) acc = acc ++ l.foldl (· ++ ·) "" := by
  induction l generalizing acc with
  | nil => simp
  | cons s t ih =>
    rw [List.foldl_cons, List.foldl_cons, ih, ih ("" ++ s)]
    simp [String.append_assoc]

theorem join_cons (a : String) (l : List String) :
    String.join (a :: l) = a ++ String.join l := by
  simp only [String.join, List.foldl_cons]
  rw [str_foldl_append]
  simp

theorem streamAccum_step (acc : String) (c : StreamChunk) :
    streamAccumStep acc c = acc ++ chunkFragment c := by
  obtain ⟨chs⟩ := c
  simp only [streamAccumStep, chunkFragment]
  rcases chs with _ | ⟨ch, t⟩
  · simp
  · obtain ⟨dc⟩ := ch
    rcases dc with _ | s
    · simp
    · simp only []
      split
      · rfl
      · rename_i hs
        simp only [ne_eq, not_not] at hs
        simp [hs]

/-- The accumulated full content equals the concatenation, in arrival
order, of the fragments the chunks carry. -/
theorem streamAccum_eq_join (chunks : List StreamChunk) :
    streamAccum chunks = String.join (chunks.map chunkFragment) := by
  suffices h : ∀ acc, chunks.foldl streamAccumStep acc =
      acc ++ String.join (chunks.map chunkFragment) by
    simpa [streamAccum] using h ""
  induction chunks with
  | nil => intro acc; simp [String.join]
  | cons c t ih =>
    intro acc
    rw [List.foldl_cons, ih, streamAccum_step, List.map_cons, join_cons, String.append_assoc]

theorem C8_stream_concat_persisted {τ : Type} (config : QianwenConfigM) (chat : ChatState)
    (me : MemEnv) (limpl : Option (LogStorageImpl τ)) (lst : τ) (message freshId : String)
    (now : Nat) (chunks : List StreamChunk)
    (hmem : chat._memory_enabled = true) (hconn : me.store.connected = true)
    (hfc : streamAccum chunks ≠ "") :
    (QianwenChat.stream config chat (some me) limpl lst message chunks (.ok ()) freshId
      now).yielded = chunks ∧
    envDocs ((QianwenChat.stream config chat (some me) limpl lst message chunks (.ok ())
        freshId now).env) =
      me.store.docs ++
        [⟨chat._user_id, chat._session_id, "user", message, [], now⟩,
         ⟨chat._user_id, chat._session_id, "assistant",
          String.join (chunks.map chunkFragment), [], now + 1⟩] := by
  obtain ⟨mm2, hmm⟩ := build_messages_env config chat me message
  constructor
  · rfl
  · unfold QianwenChat.stream
    simp only []
    rw [hmm, hmem]
    rw [if_pos ⟨rfl, hfc⟩]
    simp only [envDocs]
    rw [mem_save_store config.memory me.store mm2
      ⟨"user", .str message, now, chat._user_id, chat._session_id, []⟩ now hconn]
    simp only [mkDoc, contentToStr]
    have h2 := mem_save_store config.memory
      { connected := me.store.connected,
        docs := me.store.docs ++
          [⟨chat._user_id, chat._session_id, "user", message, [], now⟩] }
      (MemoryManager.save_message (mongoMemImpl config.memory) me.store mm2
        ⟨"user", .str message, now, chat._user_id, chat._session_id, []⟩ now).2
      ⟨"assistant", .str (streamAccum chunks), now + 1, chat._user_id, chat._session_id, []⟩
      (now + 1) (by simpa using hconn)
    rw [h2]
    simp [mkDoc, contentToStr, streamAccum_eq_join]

/-- The fragments of the claim scenario. -/
def helloChunks : List StreamChunk :=
  [⟨[⟨some "Hel"⟩]⟩, ⟨[⟨some "lo, "⟩]⟩, ⟨[⟨some "world!"⟩]⟩]

/-- Witness for C8: fragments "Hel", "lo, ", "world!" are all yielded and
the persisted assistant content is "Hello, world!". -/
theorem C8_stream_concat_persisted_witness :
    (QianwenChat.stream {} chatW (some ⟨mongoEmptyStore, mmEmptyCache⟩)
      (none : Option (LogStorageImpl Unit)) () "hi" helloChunks (.ok ()) "rid" 7).yielded =
        helloChunks ∧
    envDocs ((QianwenChat.stream {} chatW (some ⟨mongoEmptyStore, mmEmptyCache⟩)
        (none : Option (LogStorageImpl Unit)) () "hi" helloChunks (.ok ()) "rid" 7).env) =
      mongoEmptyStore.docs ++
        [⟨"u", "s", "user", "hi", [], 7⟩,
         ⟨"u", "s", "assistant", "Hello, world!", [], 8⟩] := by
  have h := C8_stream_concat_persisted {} chatW ⟨mongoEmptyStore, mmEmptyCache⟩
    (none : Option (LogStorageImpl Unit)) () "hi" "rid" 7 helloChunks rfl rfl (by decide)
  refine ⟨h.1, ?_⟩
  have h2 := h.2
  rw [show String.join (helloChunks.map chunkFragment) = "Hello, world!" from by decide] at h2
  exact h2
